import Mathlib

/-!
Shallow embedding of src/Logger.h (namespace Loggy): the thread-safe queue
(SafeQueue), the sink (Output) with its drop policy, destructor and worker
loop body, the registry (Log) with its routing, and the record formatter.

Modelling conventions:
- machine integers (int, size_t, time_t) become Int and Nat; difftime on
  integral time_t values compared against the double constant 5.0 becomes
  the integer comparison t - firstDrop > 5, which agrees with the source
  on whole seconds;
- wide strings (wstring) become String;
- the C library pair localtime/strftime used by Loggy::timestamp is
  external to this repository, so the development is parametrized over a
  function ts : String -> Int -> String taking the format string and the
  raw time value and returning the rendered timestamp;
- concurrency becomes explicit state passing: SafeQueue.pop returns none
  exactly where the calling thread would block, and the worker loop body
  of Output::worker is exposed as the single step Output.workerStep;
- the thread_local LastLog scratch of the calling thread (fields ws, tm)
  is carried inside the Log state as the fields ll_ws and ll_tm;
- the unused members of Log (trigFrom_, trigTo_, trigCnt_, buffer_,
  mutex_, getFiles) take part in no claim and are omitted, as is the
  periodic-flush bookkeeping of Output::worker (local variables written
  and lastFlush) which only times calls to wstream_.flush().
-/

namespace Loggy

/-- Logger.h line 43. -/
def DEFAULT_BUF_CNT : Nat := 1000

/-- Logger.h line 44. -/
def DEFAULT_TIME_FMT : String := "%Y%m%d.%H%M%S"

/-- Logger.h line 45, the double 5.0 on integral seconds. -/
def DROP_NOTIFY_SECONDS : Int := 5

/-- Logger.h line 46, the double 1.0 on integral seconds. -/
def FLUSH_SECONDS : Int := 1

/-- Level enumeration, Logger.h lines 48-57. -/
def LINVALID : Int := 0

def LTRACE : Int := 9

def LDEBUG : Int := 10

def LINFO : Int := 20

def LERROR : Int := 40

def LWARN : Int := 30

def LCRITICAL : Int := 50

def LMAX : Int := 50

/-- The global level-name table levelNames_, Logger.h lines 59-67, in
declaration order. -/
def levelNames : List (Int × String) :=
  [(LINVALID, "INVALID"), (LTRACE, "TRACE"), (LDEBUG, "DEBUG"), (LINFO, "INFO"),
   (LERROR, "ERROR"), (LWARN, "WARN"), (LCRITICAL, "CRITICAL")]

/-- Log::levelname, Logger.h line 364: levelNames_[level].c_str(). The
subscript operator of unordered_map default-inserts an empty string for a
missing key and returns a reference to it, so the observable result of a
lookup of an unlisted level is the empty string. -/
def levelname (level : Int) : String :=
  (levelNames.lookup level).getD ""

/-- SafeQueue<T>, Logger.h lines 101-174: field q is the FIFO contents
(front first), field x the quit flag (value-initialized to false by the
constructor). The mutex and condition variable serialize access and are
represented by the sequential state passing itself. -/
structure SafeQueue (T : Type) where
  q : List T
  x : Bool
deriving Repr, DecidableEq

/-- The state built by the SafeQueue constructor, Logger.h lines 103-109. -/
def SafeQueue.init (T : Type) : SafeQueue T := ⟨[], false⟩

/-- SafeQueue::push, Logger.h lines 114-119: appends unconditionally (the
quit flag is not consulted) and wakes one consumer. -/
def SafeQueue.push {T : Type} (s : SafeQueue T) (t : T) : SafeQueue T :=
  { s with q := s.q ++ [t] }

/-- SafeQueue::pop, Logger.h lines 123-142. none models the caller staying
blocked on the condition variable (empty queue, quit not signaled); after
quit is signaled the call returns the default-constructed sentinel T()
without touching the queue; otherwise it removes and returns the front. -/
def SafeQueue.pop {T : Type} [Inhabited T] (s : SafeQueue T) : Option (T × SafeQueue T) :=
  if s.x then some (default, s)
  else
    match s.q with
    | [] => none
    | v :: rest => some (v, { s with q := rest })

/-- SafeQueue::size, Logger.h line 144. -/
def SafeQueue.size {T : Type} (s : SafeQueue T) : Nat := s.q.length

/-- SafeQueue::drain, Logger.h lines 154-161: swaps the contents for an
empty queue and returns the discarded count. -/
def SafeQueue.drain {T : Type} (s : SafeQueue T) : Nat × SafeQueue T :=
  (s.q.length, { s with q := [] })

/-- SafeQueue::quit, Logger.h lines 163-167: sets x and drains. -/
def SafeQueue.quit {T : Type} (s : SafeQueue T) : Nat × SafeQueue T :=
  SafeQueue.drain { s with x := true }

/-- Log::basename helper, Logger.h lines 356-362, built on strrchr: the
suffix strictly after the last occurrence of c, if c occurs. -/
def afterLast (c : Char) : List Char → Option (List Char)
  | [] => none
  | x :: rest =>
    match afterLast c rest with
    | some r => some r
    | none => if x = c then some rest else none

/-- Log::basename, Logger.h lines 356-362: strrchr for a backslash first;
only when no backslash occurs, strrchr for a forward slash; the whole
input when neither occurs. -/
def basename (file : String) : String :=
  match afterLast '\\' file.data with
  | some r => String.mk r
  | none =>
    match afterLast '/' file.data with
    | some r => String.mk r
    | none => file

/-- The suffix strictly after the last path separator (slash or backslash),
used only by basenameSpec below. -/
def afterLastSep : List Char → Option (List Char)
  | [] => none
  | x :: rest =>
    match afterLastSep rest with
    | some r => some r
    | none => if x = '/' ∨ x = '\\' then some rest else none

/-- Modelled from the words of the specification (not from the source, for
comparison with basename): strips everything up to the last path
separator, treating slash and backslash uniformly. -/
def basenameSpec (file : String) : String :=
  match afterLastSep file.data with
  | some r => String.mk r
  | none => file

/-- The text of the synthetic record built by Output::logDropped, Logger.h
lines 240-244: timestamp under DEFAULT_TIME_FMT at the wall-clock time of
the call, then " dropped ", the counter, " entries". -/
def droppedMsg (ts : String → Int → String) (n : Nat) (now : Int) : String :=
  ts DEFAULT_TIME_FMT now ++ " dropped " ++ toString n ++ " entries"

/-- Output, Logger.h lines 196-289: the queue of pending record texts, the
maximum depth max_ (0 = unbounded), the per-sink threshold level_, the
drop counter, the liveness flag and the first-drop timestamp. The
destination stream and the worker thread handle live outside the state:
writes are observed through Output.workerStep below. -/
structure Output where
  queue_ : SafeQueue String
  max_ : Nat
  level_ : Int
  dropped_ : Nat
  alive_ : Bool
  firstDrop_ : Int
deriving Repr, DecidableEq

/-- The state built by both Output constructors, Logger.h lines 209-224:
fresh queue, given level and max, and the member initializers dropped_ = 0,
alive_ = true, firstDrop_ = 0. -/
def Output.init (level : Int) (max : Nat) : Output :=
  { queue_ := SafeQueue.init String, max_ := max, level_ := level,
    dropped_ := 0, alive_ := true, firstDrop_ := 0 }

/-- Output::logDropped, Logger.h lines 238-247: pushes the synthetic
dropped-count record (timestamped with a fresh time() call, modelled by
now) and resets the counter. -/
def Output.logDropped (ts : String → Int → String) (now : Int) (o : Output) : Output :=
  { o with queue_ := o.queue_.push (droppedMsg ts o.dropped_ now), dropped_ := 0 }

/-- Output::add, Logger.h lines 249-265: discard silently when not alive;
enqueue when max_ == 0 or the queue size is below max_; otherwise count a
drop, remembering t on the first drop of a streak and flushing the
synthetic notification once more than DROP_NOTIFY_SECONDS have elapsed
since that first drop. -/
def Output.add (ts : String → Int → String) (now : Int) (o : Output) (str : String) (t : Int) :
    Output :=
  if o.alive_ then
    if o.max_ = 0 ∨ o.queue_.size < o.max_ then
      { o with queue_ := o.queue_.push str }
    else if o.dropped_ + 1 = 1 then
      { o with dropped_ := o.dropped_ + 1, firstDrop_ := t }
    else if t - o.firstDrop_ > DROP_NOTIFY_SECONDS then
      Output.logDropped ts now { o with dropped_ := o.dropped_ + 1 }
    else
      { o with dropped_ := o.dropped_ + 1 }
  else
    o

/-- The body of the Output destructor, Logger.h lines 226-234: clear
alive_, quit the queue adding the discarded count to dropped_, push one
synthetic record when the resulting count is nonzero, then join the worker
(a pure synchronization step with no further state effect). -/
def Output.destruct (ts : String → Int → String) (now : Int) (o : Output) : Output :=
  let o1 : Output := { o with alive_ := false }
  let r := o1.queue_.quit
  let o2 : Output := { o1 with queue_ := r.2, dropped_ := o1.dropped_ + r.1 }
  if o2.dropped_ ≠ 0 then Output.logDropped ts now o2 else o2

/-- One iteration of the pop-and-write part of Output::worker, Logger.h
lines 282-286: none when the pop blocks; otherwise the popped value is
written to the destination only when alive_ still holds (the second
component is the line written, none when nothing is written). The
enclosing loop runs while alive_ holds. The periodic-flush bookkeeping of
lines 273-281 only times destination flushes and is omitted. -/
def Output.workerStep (o : Output) : Option (Output × Option String) :=
  match o.queue_.pop with
  | none => none
  | some (t, q2) => some ({ o with queue_ := q2 }, if o.alive_ then some t else none)

/-- Log, Logger.h lines 291-402: the global level (initialized to LINFO),
the time format (initialized to DEFAULT_TIME_FMT), the configured sinks in
insertion order, the implicit default sink Output(wcout, LINFO, 1), and
the calling thread LastLog scratch (ll_ws, ll_tm). -/
structure Log where
  level_ : Int
  timeFormat_ : String
  outputs_ : List Output
  default_output_ : Output
  ll_ws : String
  ll_tm : Int
deriving Repr, DecidableEq

/-- The state built by the Log constructor, Logger.h lines 295-308, with a
fresh LastLog scratch (empty stream, tm = 0). -/
def Log.init : Log :=
  { level_ := LINFO, timeFormat_ := DEFAULT_TIME_FMT, outputs_ := [],
    default_output_ := Output.init LINFO 1, ll_ws := "", ll_tm := 0 }

/-- Log::isLevel, Logger.h line 310. -/
def Log.isLevel (l : Log) (level : Int) : Bool := level ≥ l.level_

/-- Log::setLevel, Logger.h line 343. -/
def Log.setLevel (l : Log) (level : Int) : Log := { l with level_ := level }

/-- Log::resetOutput, Logger.h lines 312-316 (the destruction of the
cleared sinks is observed through Output.destruct separately). -/
def Log.resetOutput (l : Log) : Log := { l with outputs_ := [] }

/-- Log::addOutput, Logger.h lines 318-328: appends a sink built with the
given level and bufferSize. -/
def Log.addOutput (l : Log) (level : Int) (bufferSize : Nat) : Log :=
  { l with outputs_ := l.outputs_ ++ [Output.init level bufferSize] }

/-- The header text written by Log::writer, Logger.h lines 372-373:
timestamp, space, basename, colon, line, space, level name, space. -/
def writerHeader (ts : String → Int → String) (fmt : String) (level : Int) (file : String)
    (line : Int) (now : Int) : String :=
  ts fmt now ++ " " ++ basename file ++ ":" ++ toString line ++ " " ++ levelname level ++ " "

/-- Log::writer, Logger.h lines 366-374: stores the current time in the
scratch tm, resets the scratch stream discarding its previous contents,
and writes the header into it. The returned wostream reference, into which
the caller inserts the message body, is modelled by Log.appendMsg. -/
def Log.writer (ts : String → Int → String) (l : Log) (level : Int) (file : String)
    (line : Int) (now : Int) : Log :=
  { l with ll_tm := now, ll_ws := writerHeader ts l.timeFormat_ level file line now }

/-- The message-body insertion performed by the caller on the stream
returned from Log::writer (the << msg of the LOGL macro, Logger.h
line 26). -/
def Log.appendMsg (l : Log) (msg : String) : Log :=
  { l with ll_ws := l.ll_ws ++ msg }

/-- Log::queue, Logger.h lines 376-390: reads the staged record text and
time from the scratch (clearing neither) and, when no sinks are
configured, forwards to the default sink, otherwise to every configured
sink in order. -/
def Log.queue (ts : String → Int → String) (now : Int) (l : Log) : Log :=
  if l.outputs_ = [] then
    { l with default_output_ := Output.add ts now l.default_output_ l.ll_ws l.ll_tm }
  else
    { l with outputs_ := l.outputs_.map (fun o => Output.add ts now o l.ll_ws l.ll_tm) }

/-- The LOGL macro, Logger.h lines 24-28: test the global level, then
writer, message insertion, queue. -/
def Log.emit (ts : String → Int → String) (now : Int) (l : Log) (level : Int) (file : String)
    (line : Int) (msg : String) : Log :=
  if l.isLevel level then
    Log.queue ts now ((Log.writer ts l level file line now).appendMsg msg)
  else
    l

/-- Iterated Output.add of a batch of record texts sharing one staged
time t, as produced by back-to-back LOGL emissions faster than the worker
drains. -/
def Output.addAll (ts : String → Int → String) (now t : Int) (o : Output) (rs : List String) :
    Output :=
  rs.foldl (fun acc r => Output.add ts now acc r t) o

/-- A concrete timestamp renderer for ground instances. -/
def ts0 : String → Int → String := fun _ _ => "T"

/-! Branch lemmas for Output.add, shared by several developments below. -/

theorem add_alive_room (ts : String → Int → String) (now : Int) (o : Output) (str : String)
    (t : Int) (ha : o.alive_ = true) (hc : o.max_ = 0 ∨ o.queue_.q.length < o.max_) :
    Output.add ts now o str t = { o with queue_ := o.queue_.push str } := by
  simp only [Output.add, SafeQueue.size]
  rw [if_pos ha, if_pos hc]

theorem add_drop_first (ts : String → Int → String) (now : Int) (o : Output) (str : String)
    (t : Int) (ha : o.alive_ = true) (hm : ¬(o.max_ = 0 ∨ o.queue_.q.length < o.max_))
    (hd : o.dropped_ = 0) :
    Output.add ts now o str t = { o with dropped_ := 1, firstDrop_ := t } := by
  simp only [Output.add, SafeQueue.size]
  rw [if_pos ha, if_neg hm, if_pos (by omega)]
  simp [hd]

theorem add_drop_count (ts : String → Int → String) (now : Int) (o : Output) (str : String)
    (t : Int) (ha : o.alive_ = true) (hm : ¬(o.max_ = 0 ∨ o.queue_.q.length < o.max_))
    (hd : o.dropped_ ≠ 0) (hns : ¬(t - o.firstDrop_ > DROP_NOTIFY_SECONDS)) :
    Output.add ts now o str t = { o with dropped_ := o.dropped_ + 1 } := by
  simp only [Output.add, SafeQueue.size]
  rw [if_pos ha, if_neg hm, if_neg (by omega), if_neg hns]

theorem add_drop_notify (ts : String → Int → String) (now : Int) (o : Output) (str : String)
    (t : Int) (ha : o.alive_ = true) (hm : ¬(o.max_ = 0 ∨ o.queue_.q.length < o.max_))
    (hd : o.dropped_ ≠ 0) (hs : t - o.firstDrop_ > DROP_NOTIFY_SECONDS) :
    Output.add ts now o str t =
      { o with queue_ := o.queue_.push (droppedMsg ts (o.dropped_ + 1) now), dropped_ := 0 } := by
  simp only [Output.add, SafeQueue.size]
  rw [if_pos ha, if_neg hm, if_neg (by omega), if_pos hs]
  simp [Output.logDropped]

theorem add_dead (ts : String → Int → String) (now : Int) (o : Output) (str : String)
    (t : Int) (ha : o.alive_ = false) :
    Output.add ts now o str t = o := by
  simp only [Output.add, SafeQueue.size]
  rw [if_neg (by simp [ha])]

/-- Claim C4: SafeQueue.quit marks the queue permanently signaled, empties
it and returns the discarded count; a pop after quit returns the
default-constructed sentinel immediately instead of blocking; a pop before
quit on a non-empty queue returns the front element. -/
theorem safeQueue_quit_pop (s : SafeQueue String) (v : String) (rest : List String) :
    ((SafeQueue.quit s).1 = s.q.length ∧ (SafeQueue.quit s).2.q = [] ∧
      (SafeQueue.quit s).2.x = true) ∧
    (s.x = true → s.pop = some ("", s)) ∧
    (s.x = false → s.q = v :: rest → s.pop = some (v, { s with q := rest })) := by
  refine ⟨⟨rfl, rfl, rfl⟩, ?_, ?_⟩
  · intro hx
    simp [SafeQueue.pop, hx]
  · intro hx hq
    simp [SafeQueue.pop, hx, hq]

theorem safeQueue_quit_pop_w :
    (SafeQueue.quit (⟨["a", "b"], false⟩ : SafeQueue String)).1 = 2 ∧
    SafeQueue.pop (⟨["z"], true⟩ : SafeQueue String) = some ("", ⟨["z"], true⟩) ∧
    SafeQueue.pop (⟨["a", "b"], false⟩ : SafeQueue String) = some ("a", ⟨["b"], false⟩) := by
  refine ⟨?_, ?_, ?_⟩
  · have h := (safeQueue_quit_pop ⟨["a", "b"], false⟩ "a" ["b"]).1.1
    simpa using h
  · exact (safeQueue_quit_pop ⟨["z"], true⟩ "a" []).2.1 rfl
  · have h := (safeQueue_quit_pop ⟨["a", "b"], false⟩ "a" ["b"]).2.2 rfl rfl
    simpa using h

/-- Claim C5 counterexample: the level-name lookup of the unlisted level 15
yields the empty string, not the placeholder INVALID. -/
theorem levelname_unknown_cex :
    levelname 15 = "" ∧ levelname 15 ≠ "INVALID" := by
  constructor <;> decide

/-- Claim C5, amended: looking up any integer level is total and stable;
an unlisted level yields the empty string (the value default-inserted by
the subscript operator of unordered_map), never undefined behavior, while
a listed level yields its table entry. -/
theorem levelname_lookup (level : Int) :
    (levelNames.lookup level = none → levelname level = "") ∧
    (∀ s : String, levelNames.lookup level = some s → levelname level = s) := by
  constructor
  · intro h
    simp [levelname, h]
  · intro s h
    simp [levelname, h]

theorem levelname_lookup_w :
    levelname 15 = "" ∧ levelname 20 = "INFO" := by
  constructor
  · exact (levelname_lookup 15).1 (by decide)
  · exact (levelname_lookup 20).2 "INFO" (by decide)

/-- Claim C9: SafeQueue.push still accepts and stores items after quit has
been signaled (the quit flag is not consulted), but a pop on a quit queue
always returns the sentinel and leaves the queue untouched, so stored
items are never returned; in particular the synthetic drop record pushed
by the Output destructor after the quit sits alone in the quit queue and
every pop on that queue yields the sentinel, never the record. -/
theorem quit_push_lost (ts : String → Int → String) (s : SafeQueue String) (t : String)
    (o : Output) (now : Int) :
    ((s.push t).q = s.q ++ [t] ∧ (s.push t).x = s.x) ∧
    (s.x = true → s.pop = some ("", s)) ∧
    (o.dropped_ + o.queue_.q.length ≠ 0 →
      (Output.destruct ts now o).queue_.x = true ∧
      (Output.destruct ts now o).queue_.q
        = [droppedMsg ts (o.dropped_ + o.queue_.q.length) now] ∧
      (Output.destruct ts now o).queue_.pop
        = some ("", (Output.destruct ts now o).queue_)) := by
  refine ⟨⟨rfl, rfl⟩, ?_, ?_⟩
  · intro hx
    simp [SafeQueue.pop, hx]
  · intro hd
    have hdes : Output.destruct ts now o =
        { o with alive_ := false,
                 queue_ := ⟨[droppedMsg ts (o.dropped_ + o.queue_.q.length) now], true⟩,
                 dropped_ := 0 } := by
      simp only [Output.destruct, SafeQueue.quit, SafeQueue.drain]
      rw [if_pos (by simpa using hd)]
      simp [Output.logDropped, SafeQueue.push]
    rw [hdes]
    refine ⟨rfl, rfl, ?_⟩
    simp [SafeQueue.pop]

theorem quit_push_lost_w :
    (SafeQueue.push (⟨["p"], true⟩ : SafeQueue String) "q2").q = ["p", "q2"] ∧
    SafeQueue.pop (⟨["p", "q2"], true⟩ : SafeQueue String) = some ("", ⟨["p", "q2"], true⟩) ∧
    (Output.destruct ts0 0
        { queue_ := ⟨["r1"], false⟩, max_ := 0, level_ := 20, dropped_ := 0,
          alive_ := true, firstDrop_ := 0 }).queue_.q = ["T dropped 1 entries"] := by
  refine ⟨?_, ?_, ?_⟩
  · have h := (quit_push_lost ts0 ⟨["p"], true⟩ "q2" (Output.init 0 0) 0).1.1
    simpa using h
  · exact (quit_push_lost ts0 ⟨["p", "q2"], true⟩ "x" (Output.init 0 0) 0).2.1 rfl
  · have h := (quit_push_lost ts0 (SafeQueue.init String) "x"
      { queue_ := ⟨["r1"], false⟩, max_ := 0, level_ := 20, dropped_ := 0,
        alive_ := true, firstDrop_ := 0 } 0).2.2 (by decide)
    simpa using h.2.1

/-- A sink state holding five successfully enqueued, not yet written
records, as in the shutdown scenario of the specification. -/
def pending5 : Output :=
  { queue_ := ⟨["r1", "r2", "r3", "r4", "r5"], false⟩, max_ := 0, level_ := 20,
    dropped_ := 0, alive_ := true, firstDrop_ := 0 }

/-- Claim C2 counterexample: destroying a Sink holding five pending
records does not write them; the destructor discards all five from the
queue (only the synthetic dropped-count record remains, in a quit queue),
and the worker step after destruction pops the sentinel and writes
nothing, so the five records never reach the destination. -/
theorem destruct_discards_cex :
    ((Output.destruct ts0 0 pending5).queue_.q.contains "r1" = false) ∧
    (Output.destruct ts0 0 pending5).queue_.q = ["T dropped 5 entries"] ∧
    (Output.destruct ts0 0 pending5).alive_ = false ∧
    Output.workerStep (Output.destruct ts0 0 pending5)
      = some (Output.destruct ts0 0 pending5, none) := by
  refine ⟨?_, ?_, ?_, ?_⟩ <;> decide

/-- Claim C2, amended: destroying a Sink without a prior flush discards
its pending records instead of writing them: the destructor clears the
liveness flag and quits the queue, which drains the N pending records and
adds N to the drop counter; when the resulting counter is nonzero exactly
one synthetic dropped-count record is pushed into the already-quit queue;
and a worker step on the destructed state pops only the sentinel and
writes nothing, so teardown completes with none of the N records reaching
the destination. -/
theorem destruct_drops_pending (ts : String → Int → String) (now : Int) (o : Output) :
    (Output.destruct ts now o).alive_ = false ∧
    (Output.destruct ts now o).queue_.x = true ∧
    (o.dropped_ + o.queue_.q.length ≠ 0 →
      (Output.destruct ts now o).queue_.q
        = [droppedMsg ts (o.dropped_ + o.queue_.q.length) now]) ∧
    (o.dropped_ + o.queue_.q.length = 0 → (Output.destruct ts now o).queue_.q = []) ∧
    Output.workerStep (Output.destruct ts now o) = some (Output.destruct ts now o, none) := by
  by_cases hd : o.dropped_ + o.queue_.q.length = 0
  · have hdes : Output.destruct ts now o =
        { o with alive_ := false, queue_ := ⟨[], true⟩,
                 dropped_ := o.dropped_ + o.queue_.q.length } := by
      simp only [Output.destruct, SafeQueue.quit, SafeQueue.drain]
      rw [if_neg (by simpa using hd)]
    rw [hdes]
    exact ⟨rfl, rfl, fun h => absurd hd h, fun _ => rfl, by simp [Output.workerStep, SafeQueue.pop]⟩
  · have hdes : Output.destruct ts now o =
        { o with alive_ := false,
                 queue_ := ⟨[droppedMsg ts (o.dropped_ + o.queue_.q.length) now], true⟩,
                 dropped_ := 0 } := by
      simp only [Output.destruct, SafeQueue.quit, SafeQueue.drain]
      rw [if_pos (by simpa using hd)]
      simp [Output.logDropped, SafeQueue.push, droppedMsg]
    rw [hdes]
    exact ⟨rfl, rfl, fun _ => rfl, fun h => absurd h hd, by simp [Output.workerStep, SafeQueue.pop]⟩

theorem destruct_drops_pending_w :
    (Output.destruct ts0 0 pending5).alive_ = false ∧
    (Output.destruct ts0 0 pending5).queue_.q = ["T dropped 5 entries"] := by
  refine ⟨(destruct_drops_pending ts0 0 pending5).1, ?_⟩
  exact ((destruct_drops_pending ts0 0 pending5).2.2.1 (by decide)).trans (by decide)

/-! Batch lemmas for the drop policy. -/

theorem addAll_fill (ts : String → Int → String) (now t : Int) (rs : List String) :
    ∀ (o : Output), o.alive_ = true →
      (o.max_ = 0 ∨ o.queue_.q.length + rs.length ≤ o.max_) →
      Output.addAll ts now t o rs
        = { o with queue_ := { o.queue_ with q := o.queue_.q ++ rs } } := by
  induction rs with
  | nil =>
    intro o _ _
    simp [Output.addAll]
  | cons r rest ih =>
    intro o ha h
    have hc : o.max_ = 0 ∨ o.queue_.q.length < o.max_ := by
      rcases h with h | h
      · exact Or.inl h
      · right
        simp only [List.length_cons] at h
        omega
    have hstep : Output.addAll ts now t o (r :: rest)
        = Output.addAll ts now t (Output.add ts now o r t) rest := rfl
    rw [hstep, add_alive_room ts now o r t ha hc]
    rw [ih { o with queue_ := o.queue_.push r } ha ?hcond]
    case hcond =>
      rcases h with h | h
      · exact Or.inl h
      · right
        simp only [SafeQueue.push, List.length_append, List.length_cons,
          List.length_nil] at h ⊢
        omega
    simp [SafeQueue.push]

theorem addAll_drops (ts : String → Int → String) (now t : Int) (rs : List String) :
    ∀ (o : Output), o.alive_ = true → ¬(o.max_ = 0 ∨ o.queue_.q.length < o.max_) →
      o.dropped_ ≠ 0 → o.firstDrop_ = t →
      Output.addAll ts now t o rs = { o with dropped_ := o.dropped_ + rs.length } := by
  induction rs with
  | nil =>
    intro o _ _ _ _
    simp [Output.addAll]
  | cons r rest ih =>
    intro o ha hm hd hf
    have hns : ¬(t - o.firstDrop_ > DROP_NOTIFY_SECONDS) := by
      rw [hf]
      simp [DROP_NOTIFY_SECONDS]
    have hstep : Output.addAll ts now t o (r :: rest)
        = Output.addAll ts now t (Output.add ts now o r t) rest := rfl
    rw [hstep, add_drop_count ts now o r t ha hm hd hns]
    rw [ih { o with dropped_ := o.dropped_ + 1 } ha hm (Nat.succ_ne_zero o.dropped_) hf]
    have harith : o.dropped_ + 1 + rest.length = o.dropped_ + (r :: rest).length := by
      simp only [List.length_cons]
      omega
    rw [harith]

theorem addAll_full_fresh (ts : String → Int → String) (now t : Int) (o : Output)
    (ds : List String) (ha : o.alive_ = true)
    (hm : ¬(o.max_ = 0 ∨ o.queue_.q.length < o.max_)) (hd : o.dropped_ = 0) :
    (Output.addAll ts now t o ds).queue_ = o.queue_ ∧
    (Output.addAll ts now t o ds).dropped_ = ds.length := by
  cases ds with
  | nil =>
    exact ⟨rfl, hd⟩
  | cons r rest =>
    have hstep : Output.addAll ts now t o (r :: rest)
        = Output.addAll ts now t (Output.add ts now o r t) rest := rfl
    rw [hstep, add_drop_first ts now o r t ha hm hd]
    rw [addAll_drops ts now t rest { o with dropped_ := 1, firstDrop_ := t } ha hm
      Nat.one_ne_zero rfl]
    refine ⟨rfl, ?_⟩
    simp only [List.length_cons]
    omega

/-- Claim C3: the drop policy of an alive Sink whose queue is at capacity:
a plain drop enqueues nothing and increments the counter; the first drop
of a streak records its timestamp; a later drop arriving more than
DROP_NOTIFY_SECONDS after the first enqueues one synthetic dropped-count
record and resets the counter to zero; and M+K back-to-back adds into a
fresh Sink of depth M > 0, with no intervening drain and all within the
notification window, enqueue exactly the first M records and count
exactly K drops. -/
theorem drop_policy (ts : String → Int → String) :
    (∀ (o : Output) (str : String) (t now : Int),
      o.alive_ = true → o.max_ ≠ 0 → o.max_ ≤ o.queue_.q.length →
      (o.dropped_ = 0 ∨ ¬(t - o.firstDrop_ > DROP_NOTIFY_SECONDS)) →
        (Output.add ts now o str t).queue_ = o.queue_ ∧
        (Output.add ts now o str t).dropped_ = o.dropped_ + 1) ∧
    (∀ (o : Output) (str : String) (t now : Int),
      o.alive_ = true → o.max_ ≠ 0 → o.max_ ≤ o.queue_.q.length → o.dropped_ = 0 →
        (Output.add ts now o str t).firstDrop_ = t) ∧
    (∀ (o : Output) (str : String) (t now : Int),
      o.alive_ = true → o.max_ ≠ 0 → o.max_ ≤ o.queue_.q.length → o.dropped_ ≠ 0 →
      t - o.firstDrop_ > DROP_NOTIFY_SECONDS →
        (Output.add ts now o str t).queue_.q
          = o.queue_.q ++ [droppedMsg ts (o.dropped_ + 1) now] ∧
        (Output.add ts now o str t).dropped_ = 0) ∧
    (∀ (M K : Nat) (lvl t now : Int) (rs : List String), 0 < M → rs.length = M + K →
        (Output.addAll ts now t (Output.init lvl M) rs).queue_.q = rs.take M ∧
        (Output.addAll ts now t (Output.init lvl M) rs).dropped_ = K) := by
  refine ⟨?_, ?_, ?_, ?_⟩
  · intro o str t now ha hmax hfull hcase
    have hm : ¬(o.max_ = 0 ∨ o.queue_.q.length < o.max_) := by
      rintro (h | h) <;> omega
    rcases hcase with hd | hns
    · rw [add_drop_first ts now o str t ha hm hd]
      exact ⟨rfl, by simp [hd]⟩
    · by_cases hd : o.dropped_ = 0
      · rw [add_drop_first ts now o str t ha hm hd]
        exact ⟨rfl, by simp [hd]⟩
      · rw [add_drop_count ts now o str t ha hm hd hns]
        exact ⟨rfl, rfl⟩
  · intro o str t now ha hmax hfull hd
    have hm : ¬(o.max_ = 0 ∨ o.queue_.q.length < o.max_) := by
      rintro (h | h) <;> omega
    rw [add_drop_first ts now o str t ha hm hd]
  · intro o str t now ha hmax hfull hd hs
    have hm : ¬(o.max_ = 0 ∨ o.queue_.q.length < o.max_) := by
      rintro (h | h) <;> omega
    rw [add_drop_notify ts now o str t ha hm hd hs]
    exact ⟨by simp [SafeQueue.push], rfl⟩
  · intro M K lvl t now rs hM hlen
    have hsplit : rs.take M ++ rs.drop M = rs := List.take_append_drop M rs
    have hTlen : (rs.take M).length = M := by
      rw [List.length_take]
      omega
    have hDlen : (rs.drop M).length = K := by
      rw [List.length_drop]
      omega
    have hfold : Output.addAll ts now t (Output.init lvl M) rs
        = Output.addAll ts now t (Output.addAll ts now t (Output.init lvl M) (rs.take M))
            (rs.drop M) := by
      conv_lhs => rw [← hsplit]
      exact List.foldl_append _ _ _ _
    have hA : Output.addAll ts now t (Output.init lvl M) (rs.take M)
        = { Output.init lvl M with queue_ := ⟨rs.take M, false⟩ } := by
      rw [addAll_fill ts now t (rs.take M) (Output.init lvl M) rfl ?hroom]
      case hroom =>
        right
        simp [Output.init, SafeQueue.init, hTlen]
      simp [Output.init, SafeQueue.init]
    rw [hfold, hA]
    have hfull := addAll_full_fresh ts now t
      { Output.init lvl M with queue_ := ⟨rs.take M, false⟩ } (rs.drop M) rfl ?hm rfl
    case hm =>
      rintro (h | h)
      · replace h : M = 0 := h
        omega
      · replace h : (rs.take M).length < M := h
        rw [hTlen] at h
        omega
    refine ⟨?_, ?_⟩
    · rw [hfull.1]
    · rw [hfull.2, hDlen]

def fullSink : Output :=
  { queue_ := ⟨["a", "b"], false⟩, max_ := 2, level_ := 20, dropped_ := 3,
    alive_ := true, firstDrop_ := 1 }

theorem drop_policy_w :
    (Output.addAll ts0 0 0 (Output.init 20 2) ["a", "b", "c"]).queue_.q = ["a", "b"] ∧
    (Output.addAll ts0 0 0 (Output.init 20 2) ["a", "b", "c"]).dropped_ = 1 ∧
    (Output.add ts0 9 fullSink "x" 9).queue_.q = ["a", "b", "T dropped 4 entries"] := by
  have h4 := (drop_policy ts0).2.2.2 2 1 20 0 0 ["a", "b", "c"] (by decide) (by decide)
  refine ⟨h4.1.trans (by decide), h4.2, ?_⟩
  have h3 := ((drop_policy ts0).2.2.1 fullSink "x" 9 9 rfl (by decide) (by decide)
    (by decide) (by decide)).1
  exact h3.trans (by decide)

/-! Development for the remaining claims on Log and the formatter. -/

theorem add_unbounded (ts : String → Int → String) (now : Int) (o : Output) (str : String)
    (t : Int) (ha : o.alive_ = true) (hm : o.max_ = 0) :
    Output.add ts now o str t = { o with queue_ := o.queue_.push str } :=
  add_alive_room ts now o str t ha (Or.inl hm)

theorem map_congr_mem {α β : Type} (f g : α → β) :
    ∀ (xs : List α), (∀ a ∈ xs, f a = g a) → xs.map f = xs.map g
  | [], _ => rfl
  | x :: xs, h => by
    simp only [List.map_cons]
    rw [h x (by simp), map_congr_mem f g xs (fun a ha => h a (by simp [ha]))]

/-- A sink configured with threshold LINFO and unbounded depth. -/
def infoSink : Output := Output.init LINFO 0

/-- A registry whose global threshold is LTRACE with the one configured
sink infoSink. -/
def traceLog : Log := { Log.init with level_ := LTRACE, outputs_ := [infoSink] }

/-- Claim C1 (evaluation at the failing input): the per-sink threshold is
stored but never consulted. A sink constructed with threshold LINFO
enqueues a record of level LDEBUG < LINFO whenever the global threshold
admits it: emitting a LDEBUG record through a registry at global level
LTRACE delivers it into the LINFO sink. Moreover Output.add is oblivious
to the level_ field altogether. -/
theorem sink_level_ignored :
    (infoSink.level_ = LINFO ∧ LDEBUG < LINFO ∧ traceLog.level_ = LTRACE) ∧
    (Log.emit ts0 0 traceLog LDEBUG "file.cpp" 3 "hello").outputs_.map (fun o => o.queue_.q)
      = [["T file.cpp:3 DEBUG hello"]] ∧
    (∀ (ts : String → Int → String) (now : Int) (o : Output) (lvl : Int) (str : String)
        (t : Int),
      Output.add ts now { o with level_ := lvl } str t
        = { Output.add ts now o str t with level_ := lvl }) := by
  refine ⟨by decide, by decide, ?_⟩
  intro ts now o lvl str t
  by_cases ha : o.alive_ = true
  · by_cases hc : o.max_ = 0 ∨ o.queue_.q.length < o.max_
    · rw [add_alive_room ts now o str t ha hc,
        add_alive_room ts now { o with level_ := lvl } str t ha hc]
    · by_cases hd : o.dropped_ = 0
      · rw [add_drop_first ts now o str t ha hc hd,
          add_drop_first ts now { o with level_ := lvl } str t ha hc hd]
      · by_cases hs : t - o.firstDrop_ > DROP_NOTIFY_SECONDS
        · rw [add_drop_notify ts now o str t ha hc hd hs,
            add_drop_notify ts now { o with level_ := lvl } str t ha hc hd hs]
        · rw [add_drop_count ts now o str t ha hc hd hs,
            add_drop_count ts now { o with level_ := lvl } str t ha hc hd hs]
  · have ha2 : o.alive_ = false := by
      revert ha
      cases o.alive_ <;> simp
    rw [add_dead ts now o str t ha2, add_dead ts now { o with level_ := lvl } str t ha2]

/-- Claim C6: the coarse filter of the emission macro: isLevel holds iff
the level reaches the global threshold; an emission below the global
threshold performs no formatting and enqueues nothing (the whole state is
untouched); an emission at or above it formats the record and enqueues the
header plus message into the default sink when no sinks are configured and
capacity allows. -/
theorem emit_level_filter (ts : String → Int → String) (l : Log) (level : Int) (file : String)
    (line : Int) (msg : String) (now : Int) :
    (l.isLevel level = true ↔ level ≥ l.level_) ∧
    (level < l.level_ → Log.emit ts now l level file line msg = l) ∧
    (level ≥ l.level_ → l.outputs_ = [] → l.default_output_.alive_ = true →
      (l.default_output_.max_ = 0 ∨
        l.default_output_.queue_.q.length < l.default_output_.max_) →
      (Log.emit ts now l level file line msg).default_output_.queue_.q
        = l.default_output_.queue_.q
          ++ [writerHeader ts l.timeFormat_ level file line now ++ msg]) := by
  refine ⟨?_, ?_, ?_⟩
  · simp [Log.isLevel]
  · intro h
    simp only [Log.emit]
    rw [if_neg (by simp [Log.isLevel]; omega)]
  · intro hge hout ha hc
    simp only [Log.emit]
    rw [if_pos (by simp [Log.isLevel, hge])]
    simp only [Log.queue, Log.appendMsg, Log.writer]
    rw [if_pos hout]
    rw [add_alive_room ts now l.default_output_ _ _ ha hc]
    simp [SafeQueue.push]

theorem emit_level_filter_w :
    Log.emit ts0 0 Log.init LDEBUG "f.cpp" 3 "m" = Log.init ∧
    (Log.emit ts0 0 Log.init LERROR "f.cpp" 3 "m").default_output_.queue_.q
      = ["T f.cpp:3 ERROR m"] := by
  constructor
  · exact (emit_level_filter ts0 Log.init LDEBUG "f.cpp" 3 "m" 0).2.1 (by decide)
  · have h := (emit_level_filter ts0 Log.init LERROR "f.cpp" 3 "m" 0).2.2 (by decide) rfl rfl
      (by right; decide)
    exact h.trans (by decide)

/-- Claim C7: fan-out of Log.queue: with no configured sinks the staged
record goes to the implicit default sink only; with configured sinks it
goes through Output.add to every configured sink in insertion order and
the default sink is untouched. -/
theorem queue_fanout (ts : String → Int → String) (now : Int) (l : Log) :
    (l.outputs_ = [] →
      Log.queue ts now l
        = { l with default_output_ := Output.add ts now l.default_output_ l.ll_ws l.ll_tm }) ∧
    (l.outputs_ ≠ [] →
      (Log.queue ts now l).default_output_ = l.default_output_ ∧
      (Log.queue ts now l).outputs_
        = l.outputs_.map (fun o => Output.add ts now o l.ll_ws l.ll_tm)) := by
  constructor
  · intro h
    simp only [Log.queue]
    rw [if_pos h]
  · intro h
    simp only [Log.queue]
    rw [if_neg h]
    exact ⟨rfl, rfl⟩

/-- A registry with two configured sinks and the staged record text R. -/
def twoSinkLog : Log :=
  { Log.init with outputs_ := [Output.init LINFO 0, Output.init LERROR 0], ll_ws := "R" }

theorem queue_fanout_w :
    (Log.queue ts0 0 Log.init).default_output_.queue_.q = [""] ∧
    (Log.queue ts0 0 twoSinkLog).default_output_ = twoSinkLog.default_output_ ∧
    (Log.queue ts0 0 twoSinkLog).outputs_.map (fun o => o.queue_.q) = [["R"], ["R"]] := by
  refine ⟨?_, ?_, ?_⟩
  · have h := (queue_fanout ts0 0 Log.init).1 rfl
    rw [h]
    decide
  · exact ((queue_fanout ts0 0 twoSinkLog).2 (by decide)).1
  · have h := ((queue_fanout ts0 0 twoSinkLog).2 (by decide)).2
    rw [h]
    decide

/-- Claim C10: Log.queue reads but never clears the staged record, so two
queue calls with no intervening writer fan the identical record out
twice, while Log.writer overwrites whatever was staged; hence queue is
not idempotent on the sink queues. -/
theorem queue_not_idempotent (ts : String → Int → String) (now1 now2 : Int) (l : Log) :
    ((Log.queue ts now1 l).ll_ws = l.ll_ws ∧ (Log.queue ts now1 l).ll_tm = l.ll_tm) ∧
    ((∀ o ∈ l.outputs_, o.alive_ = true ∧ o.max_ = 0) →
      (Log.queue ts now2 (Log.queue ts now1 l)).outputs_.map (fun o => o.queue_.q)
        = l.outputs_.map (fun o => o.queue_.q ++ [l.ll_ws, l.ll_ws])) ∧
    (∀ (s : String) (level : Int) (file : String) (line now : Int),
      Log.writer ts { l with ll_ws := s } level file line now
        = Log.writer ts l level file line now) := by
  refine ⟨?_, ?_, ?_⟩
  · constructor <;> (simp only [Log.queue]; split <;> rfl)
  · intro hall
    by_cases he : l.outputs_ = []
    · simp [Log.queue, he]
    · simp only [Log.queue, if_neg he]
      rw [if_neg (by simpa using he)]
      simp only [List.map_map]
      refine map_congr_mem _ _ l.outputs_ (fun o ho => ?_)
      obtain ⟨hoa, hom⟩ := hall o ho
      simp only [Function.comp]
      rw [add_unbounded ts now1 o l.ll_ws l.ll_tm hoa hom]
      rw [add_unbounded ts now2 { o with queue_ := o.queue_.push l.ll_ws } l.ll_ws l.ll_tm hoa
        hom]
      simp [SafeQueue.push]
  · intro s level file line now
    rfl

theorem queue_not_idempotent_w :
    (Log.queue ts0 0 twoSinkLog).ll_ws = "R" ∧
    (Log.queue ts0 1 (Log.queue ts0 0 twoSinkLog)).outputs_.map (fun o => o.queue_.q)
      = [["R", "R"], ["R", "R"]] ∧
    Log.writer ts0 { twoSinkLog with ll_ws := "stale" } LINFO "f.cpp" 1 0
      = Log.writer ts0 twoSinkLog LINFO "f.cpp" 1 0 := by
  refine ⟨?_, ?_, ?_⟩
  · exact ((queue_not_idempotent ts0 0 0 twoSinkLog).1.1).trans (by decide)
  · have h := (queue_not_idempotent ts0 0 1 twoSinkLog).2.1 (by decide)
    exact h.trans (by decide)
  · exact (queue_not_idempotent ts0 0 0 twoSinkLog).2.2 "stale" LINFO "f.cpp" 1 0

/-! Lemmas relating basename to the uniform separator-stripping reading. -/

theorem afterLast_not_mem (c : Char) :
    ∀ (cs : List Char), c ∉ cs → afterLast c cs = none
  | [], _ => rfl
  | x :: rest, h => by
    have h1 : ¬(x = c) := fun e => h (by simp [e])
    have h2 : c ∉ rest := fun hm => h (by simp [hm])
    simp only [afterLast]
    rw [afterLast_not_mem c rest h2]
    simp [h1]

theorem afterLastSep_no_bs :
    ∀ (cs : List Char), '\\' ∉ cs → afterLastSep cs = afterLast '/' cs
  | [], _ => rfl
  | x :: rest, h => by
    have hx : x ≠ '\\' := fun e => h (by simp [e])
    have h2 : '\\' ∉ rest := fun hm => h (by simp [hm])
    simp only [afterLastSep, afterLast, afterLastSep_no_bs rest h2]
    cases hAL : afterLast '/' rest with
    | some r => rfl
    | none =>
      by_cases hx2 : x = '/'
      · rw [if_pos (Or.inl hx2), if_pos hx2]
      · rw [if_neg ?hns, if_neg hx2]
        case hns =>
          rintro (h3 | h3)
          · exact hx2 h3
          · exact hx h3

theorem basename_no_bs (file : String) (h : '\\' ∉ file.data) :
    basename file = basenameSpec file := by
  simp only [basename, basenameSpec]
  rw [afterLast_not_mem '\\' file.data h, afterLastSep_no_bs file.data h]

/-- Claim C8 counterexample: for a source path containing both separator
kinds the formatter does not strip up to the last path separator: the
source basename keeps everything after the last backslash, so for the
path a-backslash-b-slash-c the staged header keeps b/c where stripping up
to the last separator would keep only c. -/
theorem writer_basename_cex :
    basenameSpec "a\\b/c" = "c" ∧
    (Log.writer ts0 Log.init LINFO "a\\b/c" 7 0).ll_ws = "T b/c:7 INFO " ∧
    (Log.writer ts0 Log.init LINFO "a\\b/c" 7 0).ll_ws
      ≠ ts0 Log.init.timeFormat_ 0 ++ " " ++ basenameSpec "a\\b/c" ++ ":"
        ++ toString (7 : Int) ++ " " ++ levelname LINFO ++ " " := by
  refine ⟨by decide, by decide, by decide⟩

/-- Claim C8, amended: the formatter stages the prefix timestamp, space,
basename, colon, line, space, level name, space, where the timestamp is
rendered with the configured strftime-style format whose default is
YYYYMMDD.HHMMSS, and where basename strips everything up to the last
backslash when one is present and otherwise up to the last slash; the two
readings of basename agree on every path free of backslashes. -/
theorem writer_header (ts : String → Int → String) (l : Log) (level : Int) (file : String)
    (line now : Int) :
    (Log.writer ts l level file line now).ll_ws
      = ts l.timeFormat_ now ++ " " ++ basename file ++ ":" ++ toString line ++ " "
        ++ levelname level ++ " " ∧
    (Log.writer ts l level file line now).ll_tm = now ∧
    Log.init.timeFormat_ = "%Y%m%d.%H%M%S" ∧ DEFAULT_TIME_FMT = "%Y%m%d.%H%M%S" ∧
    ('\\' ∉ file.data → basename file = basenameSpec file) :=
  ⟨rfl, rfl, rfl, rfl, basename_no_bs file⟩

theorem writer_header_w :
    (Log.writer ts0 Log.init LINFO "dir/file.cpp" 42 0).ll_ws = "T file.cpp:42 INFO " ∧
    basename "dir/file.cpp" = basenameSpec "dir/file.cpp" := by
  constructor
  · exact (writer_header ts0 Log.init LINFO "dir/file.cpp" 42 0).1.trans (by decide)
  · exact (writer_header ts0 Log.init LINFO "dir/file.cpp" 42 0).2.2.2.2 (by decide)

end Loggy
